import Mathlib

/-!
Shallow embedding of the opensqt market-maker exchange connector
(`python-connector` and its earlier sibling `python_connector`).

The connector sits between a gRPC surface and the ccxt venue client.  The
parts embedded here are the ones the specification's claims are about:

* the ordered exception-to-status classification (`EXCEPTION_MAP`,
  `handle_ccxt_exception` in `src/connector/errors.py`),
* the bounded retry loop for transient failures (`retry_transient`),
* duplicate-order recovery in `PlaceOrder` / `_place_order_impl`,
* the two-phase batch submission (`BatchPlaceOrders`) with its per-item
  fallback assembly, in both repository variants,
* the kline stream multiplexer's bounded queue and producer teardown
  (`SubscribeKlines`), in both repository variants,
* the decimal conversion helper (`_to_decimal`).

Venue calls are modelled by their outcomes (`Except` values); the asyncio
queue and task machinery is modelled as an explicit transition system.
-/

namespace Spec2Proof

/-- The ccxt exception classes named by the connector's error handling,
together with the superclasses relevant for `isinstance` dispatch. -/
inductive CcxtCls
  | insufficientFunds
  | orderNotFound
  | duplicateOrderId
  | invalidOrder
  | badRequest
  | authenticationError
  | rateLimitExceeded
  | ddosProtection
  | networkError
  | exchangeNotAvailable
  | exchangeError
  | baseError
deriving DecidableEq

/-- Reflexive ancestor list of each ccxt exception class, following the
ccxt Python class hierarchy (`OrderNotFound`/`DuplicateOrderId` extend
`InvalidOrder`; `InvalidOrder`, `BadRequest`, `InsufficientFunds` and
`AuthenticationError` extend `ExchangeError`; `RateLimitExceeded` extends
`DDoSProtection` which extends `NetworkError`; `ExchangeNotAvailable`
extends `NetworkError`). -/
def CcxtCls.ancestors : CcxtCls → List CcxtCls
  | .insufficientFunds => [.insufficientFunds, .exchangeError, .baseError]
  | .orderNotFound => [.orderNotFound, .invalidOrder, .exchangeError, .baseError]
  | .duplicateOrderId => [.duplicateOrderId, .invalidOrder, .exchangeError, .baseError]
  | .invalidOrder => [.invalidOrder, .exchangeError, .baseError]
  | .badRequest => [.badRequest, .exchangeError, .baseError]
  | .authenticationError => [.authenticationError, .exchangeError, .baseError]
  | .rateLimitExceeded => [.rateLimitExceeded, .ddosProtection, .networkError, .baseError]
  | .ddosProtection => [.ddosProtection, .networkError, .baseError]
  | .networkError => [.networkError, .baseError]
  | .exchangeNotAvailable => [.exchangeNotAvailable, .networkError, .baseError]
  | .exchangeError => [.exchangeError, .baseError]
  | .baseError => [.baseError]

/-- An exception instance reaching the connector's handlers: an instance of
some ccxt class, an `asyncio.CancelledError`, or any other Python
exception. -/
inductive ExcVal
  | ccxtExc (cls : CcxtCls)
  | cancelledExc
  | otherExc
deriving DecidableEq

/-- Python `isinstance(e, cls)` for the modelled exception values. -/
def ExcVal.isInst : ExcVal → CcxtCls → Bool
  | .ccxtExc c, d => d ∈ c.ancestors
  | .cancelledExc, _ => false
  | .otherExc, _ => false

/-- The gRPC status codes used by the connector. -/
inductive GStatus
  | RESOURCE_EXHAUSTED
  | NOT_FOUND
  | ALREADY_EXISTS
  | INVALID_ARGUMENT
  | UNAUTHENTICATED
  | UNAVAILABLE
  | FAILED_PRECONDITION
  | UNKNOWN
deriving DecidableEq

/-- The `EXCEPTION_MAP` list of `python-connector/src/connector/errors.py`: the
ordered list of `(exception class, status code)` pairs. -/
def EXCEPTION_MAP : List (CcxtCls × GStatus) :=
  [ (.insufficientFunds, .RESOURCE_EXHAUSTED)
  , (.orderNotFound, .NOT_FOUND)
  , (.duplicateOrderId, .ALREADY_EXISTS)
  , (.invalidOrder, .INVALID_ARGUMENT)
  , (.badRequest, .INVALID_ARGUMENT)
  , (.authenticationError, .UNAUTHENTICATED)
  , (.rateLimitExceeded, .RESOURCE_EXHAUSTED)
  , (.networkError, .UNAVAILABLE)
  , (.exchangeNotAvailable, .UNAVAILABLE)
  , (.exchangeError, .FAILED_PRECONDITION) ]

/-- The status chosen by `handle_ccxt_exception` (and by
`_map_exception_to_code`): first match over `EXCEPTION_MAP`, defaulting to
`UNKNOWN`. -/
def statusFor (e : ExcVal) : GStatus :=
  match EXCEPTION_MAP.find? (fun p => e.isInst p.1) with
  | some p => p.2
  | none => .UNKNOWN

/-- The classification demanded by the specification's ordered table
(§4.1/§6), written from the spec's words: insufficient funds →
RESOURCE_EXHAUSTED, order not found → NOT_FOUND, duplicate id →
ALREADY_EXISTS, invalid order / bad request → INVALID_ARGUMENT,
authentication → UNAUTHENTICATED, rate limited → RESOURCE_EXHAUSTED,
network error / venue unavailable → UNAVAILABLE, any other venue-domain
error → FAILED_PRECONDITION, unrecognized → UNKNOWN; first match wins. -/
def specStatus (e : ExcVal) : GStatus :=
  if e.isInst .insufficientFunds then .RESOURCE_EXHAUSTED
  else if e.isInst .orderNotFound then .NOT_FOUND
  else if e.isInst .duplicateOrderId then .ALREADY_EXISTS
  else if e.isInst .invalidOrder then .INVALID_ARGUMENT
  else if e.isInst .badRequest then .INVALID_ARGUMENT
  else if e.isInst .authenticationError then .UNAUTHENTICATED
  else if e.isInst .rateLimitExceeded then .RESOURCE_EXHAUSTED
  else if e.isInst .networkError then .UNAVAILABLE
  else if e.isInst .exchangeNotAvailable then .UNAVAILABLE
  else if e.isInst .exchangeError then .FAILED_PRECONDITION
  else .UNKNOWN

/-- Whether an exception is caught by `retry_transient`'s
`except (ccxt.NetworkError, ccxt.ExchangeNotAvailable, ccxt.RateLimitExceeded)`
clause. -/
def transientCaught (e : ExcVal) : Bool :=
  e.isInst .networkError || e.isInst .exchangeNotAvailable || e.isInst .rateLimitExceeded

/-- Observable trace of one `retry_transient`-wrapped execution: how many
times the wrapped operation was invoked, the backoff sleeps performed (in
order), and the final outcome. -/
structure RunTrace (α : Type) where
  calls : Nat
  sleeps : List ℚ
  result : Except ExcVal α

/-- The loop body of `retry_transient`: `b` is the current backoff,
`fuel` the number of retries still allowed (`max_retries - attempt`),
`op i` the outcome of the `i`-th remaining invocation of the wrapped
operation.  Mirrors: try the call; a success returns; an exception not
caught by the transient clause propagates; a transient failure with no
attempts left is re-raised; otherwise sleep `b`, double the backoff and
retry. -/
def retryGo {α : Type} (b : ℚ) (fuel : Nat) (op : Nat → Except ExcVal α) : RunTrace α :=
  match op 0 with
  | .ok v => ⟨1, [], .ok v⟩
  | .error e =>
    if transientCaught e then
      match fuel with
      | 0 => ⟨1, [], .error e⟩
      | f + 1 =>
        let r := retryGo (b * 2) f (fun i => op (i + 1))
        ⟨r.calls + 1, b :: r.sleeps, r.result⟩
    else ⟨1, [], .error e⟩

/-- The wrapper `retry_transient(max_retries, initial_backoff)` applied to an operation
whose successive invocation outcomes are `op 0, op 1, ...`. -/
def retry_transient {α : Type} (max_retries : Nat) (initial_backoff : ℚ)
    (op : Nat → Except ExcVal α) : RunTrace α :=
  retryGo initial_backoff max_retries op

/-- Duplicate-order recovery in `_place_order_impl`
(`python-connector/src/connector/binance.py`; the body of `PlaceOrder` in
the `python_connector` variant is identical in this respect).  `create` is
the outcome of `exchange.create_order`; on a `ccxt.DuplicateOrderId`
instance, a non-empty `client_order_id` triggers
`exchange.fetch_order(None, symbol, clientOrderId=client_order_id)`,
modelled by `fetchByKey` applied to the key; its outcome (success or the
lookup's own failure, re-raised by the inner handler) is the result.  An
empty key, or a non-duplicate failure, propagates the original error. -/
def placeOrderImpl {α : Type} (create : Except ExcVal α) (client_order_id : String)
    (fetchByKey : String → Except ExcVal α) : Except ExcVal α :=
  match create with
  | .ok o => .ok o
  | .error e =>
    if e.isInst .duplicateOrderId then
      if client_order_id ≠ "" then fetchByKey client_order_id
      else .error e
    else .error e

/-- One `BatchOrderError` entry of a `BatchPlaceOrdersResponse`
(`python-connector` variant): the item's zero-based index, its request's
`client_order_id`, and the status code from `_map_exception_to_code`. -/
structure BatchErr where
  index : Nat
  client_order_id : String
  code : GStatus
deriving DecidableEq

/-- The `BatchPlaceOrdersResponse` shape of the `python-connector`
variant: successful orders, per-item error records, and `all_success`. -/
structure BatchResponse (α : Type) where
  orders : List α
  errors : List BatchErr
  all_success : Bool

/-- The fallback assembly loop of `BatchPlaceOrders`
(`python-connector` variant): iterate over the gathered per-item outcomes
(`i` is the index of the first remaining item); a success is appended to
`orders`, an exception clears `all_success` and appends a `BatchOrderError`
carrying the item's index, its request's `client_order_id` and its mapped
code.  Each list element pairs the request's `client_order_id` with the
item's outcome. -/
def buildBatch {α : Type} (i : Nat) :
    List (String × Except ExcVal α) → BatchResponse α
  | [] => ⟨[], [], true⟩
  | (cid, r) :: rest =>
    let acc := buildBatch (i + 1) rest
    match r with
    | .ok v => ⟨v :: acc.orders, acc.errors, acc.all_success⟩
    | .error e => ⟨acc.orders, ⟨i, cid, statusFor e⟩ :: acc.errors, false⟩

/-- The complete fallback path of the `python-connector` variant's
`BatchPlaceOrders`, given the per-item outcomes of
`asyncio.gather(*tasks, return_exceptions=True)` over
`_place_order_impl`. -/
def batchFallback {α : Type} (items : List (String × Except ExcVal α)) :
    BatchResponse α :=
  buildBatch 0 items

/-- The `BatchPlaceOrders` RPC of the `python-connector` variant.
`hasCreateOrders` is `exchange.has.get("createOrders")`; `native` the
outcome of the single `exchange.create_orders` invocation; `items` the
per-item outcomes used by the fallback path.  The first component records
whether the native multi-op primitive was invoked. -/
def BatchPlaceOrders {α : Type} (hasCreateOrders : Bool)
    (native : Except ExcVal (List α)) (items : List (String × Except ExcVal α)) :
    Bool × BatchResponse α :=
  if hasCreateOrders then
    match native with
    | .ok orders => (true, ⟨orders, [], true⟩)
    | .error _ => (true, batchFallback items)
  else
    (false, batchFallback items)

/-- The fallback assembly of the earlier `python_connector` variant's
`BatchPlaceOrders`: failed items are only logged — no error record and no
index is kept — and only successes are appended to `orders`. -/
def batchFallbackOld {α : Type} : List (Except ExcVal α) → List α × Bool
  | [] => ([], true)
  | r :: rest =>
    let acc := batchFallbackOld rest
    match r with
    | .ok v => (v :: acc.1, acc.2)
    | .error _ => (acc.1, false)

/-- The `handle_ccxt_exception` wrapper around one call: a `CancelledError` is
re-raised untouched; any other exception triggers `context.abort(status)`
when a gRPC context is present, then propagates.  The first component
records whether the shared RPC context was aborted. -/
def handleCcxtException {α : Type} (hasContext : Bool) (r : Except ExcVal α) :
    Bool × Except ExcVal α :=
  match r with
  | .ok v => (false, .ok v)
  | .error .cancelledExc => (false, .error .cancelledExc)
  | .error e => (hasContext, .error e)

/-- The earlier `python_connector` variant's fallback path runs each item
through the decorated `self.PlaceOrder(req, context)` — i.e. through
`handle_ccxt_exception` with the batch RPC's own context — before
gathering.  The first component records whether any item's handler aborted
the shared RPC context. -/
def batchRpcOld {α : Type} (hasContext : Bool) (rs : List (Except ExcVal α)) :
    Bool × (List α × Bool) :=
  let handled := rs.map (handleCcxtException hasContext)
  (handled.any (fun p => p.1), batchFallbackOld (handled.map (fun p => p.2)))

/-- State of the per-subscription `asyncio.Queue` used by
`SubscribeKlines`, tracking the accepted enqueues (`ins`), the current
buffer (`buf`) and the dequeued items (`outs`). -/
structure QueueSt (α : Type) where
  ins : List α
  buf : List α
  outs : List α
deriving DecidableEq

/-- Python `asyncio.Queue.full()`: with `maxsize <= 0` the queue is never full;
otherwise it is full when the buffer has reached `maxsize`. -/
def queueFull (maxsize : Nat) {α : Type} (buf : List α) : Bool :=
  decide (maxsize ≠ 0 ∧ maxsize ≤ buf.length)

/-- One interleaving step of the kline subscription's queue: a producer's
`await queue.put(item)` completes only when the queue is not full (on a
full queue the producer stays suspended and the state is unchanged — there
is no step that raises or drops); the consumer's `await queue.get()`
removes the oldest buffered item. -/
inductive QueueStep (maxsize : Nat) {α : Type} : QueueSt α → QueueSt α → Prop
  | put (s : QueueSt α) (x : α) (h : queueFull maxsize s.buf = false) :
      QueueStep maxsize s ⟨s.ins ++ [x], s.buf ++ [x], s.outs⟩
  | get (s : QueueSt α) (x : α) (rest : List α) (h : s.buf = x :: rest) :
      QueueStep maxsize s ⟨s.ins, rest, s.outs ++ [x]⟩

/-- States reachable from the freshly created empty queue. -/
def QueueReachable (maxsize : Nat) {α : Type} (s : QueueSt α) : Prop :=
  Relation.ReflTransGen (QueueStep maxsize) ⟨[], [], []⟩ s

/-- The queue capacity of `SubscribeKlines` in the `python-connector`
variant: `asyncio.Queue(maxsize=100)`. -/
def klineQueueMaxsize : Nat := 100

/-- The queue capacity of `SubscribeKlines` in the earlier
`python_connector` variant: `asyncio.Queue()`, i.e. `maxsize=0`, which
asyncio treats as unbounded. -/
def klineQueueMaxsizeOld : Nat := 0

/-- Observable state of one per-symbol producer task of
`SubscribeKlines`: whether it has finished, whether cancellation was
requested on it, and whether the subscription has awaited (joined) it. -/
structure ProducerTask where
  done : Bool
  cancelRequested : Bool
  joined : Bool
deriving DecidableEq

/-- The step `if not p.done(): p.cancel()` of the `python-connector` teardown. -/
def cancelIfNotDone (t : ProducerTask) : ProducerTask :=
  if t.done then t else { t with cancelRequested := true }

/-- Awaiting a task (via `asyncio.gather(..., return_exceptions=True)`)
runs it to completion and joins it. -/
def joinTask (t : ProducerTask) : ProducerTask :=
  { t with done := true, joined := true }

/-- Teardown of `SubscribeKlines` in the `python-connector` variant
(its `finally` block, run on consumer cancellation and on call
completion): request cancellation on every unfinished producer, then
`await asyncio.gather(*producers, return_exceptions=True)`. -/
def klineTeardown (ts : List ProducerTask) : List ProducerTask :=
  (ts.map cancelIfNotDone).map joinTask

/-- Teardown of `SubscribeKlines` in the earlier `python_connector`
variant (its `except asyncio.CancelledError` handler): `p.cancel()` on
every producer, then re-raise — the producers are never awaited. -/
def klineTeardownOld (ts : List ProducerTask) : List ProducerTask :=
  ts.map (fun t => { t with cancelRequested := true })

/-- A Python `decimal.Decimal` value: a finite value
`(-1)^neg * digits * 10^exp`, a quiet or signaling NaN with a diagnostic
payload, or an infinity. -/
inductive PyDec
  | fin (neg : Bool) (ds : List (Fin 10)) (exp : Int)
  | qnan (neg : Bool) (payload : List (Fin 10))
  | snanD (neg : Bool) (payload : List (Fin 10))
  | infty (neg : Bool)
deriving DecidableEq

/-- Whitespace stripped by Python's `str.strip()` (ASCII range). -/
def isPyWs (c : Char) : Bool :=
  c = ' ' || c = '\t' || c = '\n' || c = '\r' || c = Char.ofNat 11 || c = Char.ofNat 12

/-- Strip leading and trailing whitespace. -/
def trimWs (cs : List Char) : List Char :=
  ((cs.dropWhile isPyWs).reverse.dropWhile isPyWs).reverse

/-- An ASCII digit character as a decimal digit. -/
def charToDigit (c : Char) : Fin 10 :=
  ⟨(c.toNat - 48) % 10, by omega⟩

/-- An optional leading sign; `true` means negative. -/
def parseSign : List Char → Bool × List Char
  | '+' :: rest => (false, rest)
  | '-' :: rest => (true, rest)
  | cs => (false, cs)

/-- Numeric value of a string of ASCII digit characters. -/
def natOfDigits (cs : List Char) : Nat :=
  cs.foldl (fun acc c => 10 * acc + (c.toNat - 48)) 0

/-- Strip leading zero digits; an all-zero coefficient becomes `[0]`
(the canonical coefficient the `Decimal` constructor stores). -/
def canonDigits (ds : List (Fin 10)) : List (Fin 10) :=
  let t := ds.dropWhile (fun d => d = (0 : Fin 10))
  if t.isEmpty then [(0 : Fin 10)] else t

/-- The numeric part of the `Decimal` string grammar:
`digits [. digits] [ (e|E) [sign] digits ]` with at least one coefficient
digit; anything left over is a parse error. -/
def parseNum (cs : List Char) : Option (List (Fin 10) × Int) :=
  let p1 := cs.span Char.isDigit
  let ip := p1.1
  let p2 := match p1.2 with
            | '.' :: r => r.span Char.isDigit
            | _ => ([], p1.2)
  let fp := p2.1
  if ip.isEmpty && fp.isEmpty then none
  else
    let mant := (ip ++ fp).map charToDigit
    let fracLen : Int := fp.length
    match p2.2 with
    | [] => some (mant, -fracLen)
    | c :: r =>
      if c = 'e' || c = 'E' then
        let ps := parseSign r
        let p3 := ps.2.span Char.isDigit
        if p3.1.isEmpty || !p3.2.isEmpty then none
        else
          let ev : Int := Int.ofNat (natOfDigits p3.1)
          some (mant, (if ps.1 then -ev else ev) - fracLen)
      else none

/-- Python `decimal.Decimal(s)` on a string: strip whitespace, drop underscores,
then an optional sign followed by a numeric value, `Inf`/`Infinity`,
`NaN[digits]` or `sNaN[digits]`, case-insensitively.  `none` models the
constructor raising `InvalidOperation`. -/
def parseDecStr (s : String) : Option PyDec :=
  let cs := (trimWs s.data).filter (fun c => c ≠ '_')
  let ps := parseSign cs
  let neg := ps.1
  let low := ps.2.map Char.toLower
  if low = ['i', 'n', 'f'] || low = ['i', 'n', 'f', 'i', 'n', 'i', 't', 'y'] then
    some (.infty neg)
  else if low.take 3 = ['n', 'a', 'n'] && (low.drop 3).all Char.isDigit then
    some (.qnan neg (((low.drop 3).map charToDigit).dropWhile (fun d => d = (0 : Fin 10))))
  else if low.take 4 = ['s', 'n', 'a', 'n'] && (low.drop 4).all Char.isDigit then
    some (.snanD neg (((low.drop 4).map charToDigit).dropWhile (fun d => d = (0 : Fin 10))))
  else
    match parseNum ps.2 with
    | some md => some (.fin neg (canonDigits md.1) md.2)
    | none => none

/-- Add one to a digit string given least-significant first. -/
def addOneRev : List (Fin 10) → List (Fin 10)
  | [] => [(1 : Fin 10)]
  | d :: ds =>
    if h : d.val = 9 then (0 : Fin 10) :: addOneRev ds
    else ⟨d.val + 1, by omega⟩ :: ds

/-- Rounding of a coefficient to the default context precision of 28
significant digits with `ROUND_HALF_EVEN`, as applied by
`Decimal.normalize()`. -/
def round28 (ds : List (Fin 10)) (exp : Int) : List (Fin 10) × Int :=
  if ds.length ≤ 28 then (ds, exp)
  else
    let keep := ds.take 28
    let rest := ds.drop 28
    let exp1 := exp + ((ds.length - 28 : Nat) : Int)
    let up : Bool :=
      match rest with
      | [] => false
      | r :: rs =>
        decide (5 < r.val) ||
          (decide (r.val = 5) &&
            (rs.any (fun d => decide (d.val ≠ 0)) ||
              decide ((keep.getLast?.getD (0 : Fin 10)).val % 2 = 1)))
    if up then
      let inc := (addOneRev keep.reverse).reverse
      if inc.length = 29 then (inc.take 28, exp1 + 1) else (inc, exp1)
    else (keep, exp1)

/-- Remove trailing zero digits, shifting them into the exponent. -/
def stripTrail (ds : List (Fin 10)) (exp : Int) : List (Fin 10) × Int :=
  let r := ds.reverse.dropWhile (fun d => d = (0 : Fin 10))
  if r.isEmpty then ([(0 : Fin 10)], 0)
  else (r.reverse, exp + ((ds.length - r.length : Nat) : Int))

/-- Python `Decimal.normalize()`: a zero becomes `0` with exponent `0`; a finite
value is rounded to context precision and its trailing zeros are removed;
NaN and infinities pass through; a signaling NaN raises
`InvalidOperation` (`none`). -/
def normDec : PyDec → Option PyDec
  | .fin neg ds exp =>
    let c := canonDigits ds
    if c = [(0 : Fin 10)] then some (.fin neg [(0 : Fin 10)] 0)
    else
      let r1 := round28 c exp
      let r2 := stripTrail r1.1 r1.2
      some (.fin neg r2.1 r2.2)
  | .qnan neg p => some (.qnan neg p)
  | .snanD _ _ => none
  | .infty neg => some (.infty neg)

/-- Digit string of a coefficient. -/
def digitsChars (ds : List (Fin 10)) : List Char :=
  ds.map (fun d => Nat.digitChar d.val)

/-- Fixed-point (`:f`) formatting of a finite decimal: exponent zeros are
appended for a non-negative exponent; a negative exponent inserts the
decimal point, zero-padding on the left when the coefficient is short. -/
def formatFin (neg : Bool) (ds : List (Fin 10)) (exp : Int) : List Char :=
  let sign := if neg then ['-'] else []
  if 0 ≤ exp then sign ++ digitsChars ds ++ List.replicate exp.toNat '0'
  else
    let k := (-exp).toNat
    if k < ds.length then
      sign ++ digitsChars (ds.take (ds.length - k)) ++
        '.' :: digitsChars (ds.drop (ds.length - k))
    else
      sign ++ '0' :: '.' :: (List.replicate (k - ds.length) '0' ++ digitsChars ds)

/-- Python `format(d, "f")` on any decimal value. -/
def formatF : PyDec → List Char
  | .fin neg ds exp => formatFin neg ds exp
  | .qnan neg p => (if neg then ['-'] else []) ++ ['N', 'a', 'N'] ++ digitsChars p
  | .snanD neg p => (if neg then ['-'] else []) ++ ['s', 'N', 'a', 'N'] ++ digitsChars p
  | .infty neg => (if neg then ['-'] else []) ++ "Infinity".data

/-- A Python value reaching `_to_decimal`: `None`, an `int`, a `float`
(represented by its `str()` rendering), or a `str`. -/
inductive PyVal
  | pynone
  | pyint (n : Int)
  | pyfloat (repr : String)
  | pystr (s : String)

/-- The `normalize`-then-`:f`-format step of `_to_decimal` on an already
constructed `Decimal`, with a raising `normalize()` caught by the
surrounding `except Exception` and turned into `"0"`. -/
def decNorm (d : PyDec) : String :=
  match normDec d with
  | none => "0"
  | some d2 => String.mk (formatF d2)

/-- The `try` body of `_to_decimal` on `str(value)`:
`f"{Decimal(str(value)).normalize():f}"`, with the surrounding
`except Exception` turning either a constructor failure or a `normalize`
failure into the value `"0"`. -/
def decPipe (s : String) : String :=
  match parseDecStr s with
  | none => "0"
  | some d => decNorm d

/-- The helper `_to_decimal` of `python-connector/src/connector/binance.py`: `None`
short-circuits to `"0"`; every other input is stringified and sent through
the `Decimal` pipeline. -/
def to_decimal (v : PyVal) : String :=
  match v with
  | .pynone => "0"
  | .pyint n => decPipe (toString n)
  | .pyfloat r => decPipe r
  | .pystr s => decPipe s

/-- Shape required by the specification for a converted value: an
optional minus sign, an integer digit string, and optionally a fractional
digit string that does not end in `0` — plain positional notation with no
exponent marker and no trailing fractional zeros. -/
def plainDecCore (cs : List Char) : Bool :=
  (!(cs.takeWhile Char.isDigit).isEmpty) &&
    (match cs.dropWhile Char.isDigit with
     | [] => true
     | '.' :: frac =>
       (!frac.isEmpty) && frac.all Char.isDigit && decide (frac.getLast? ≠ some '0')
     | _ => false)

/-- Shape check `plainDecCore` after an optional leading minus sign. -/
def isPlainDecStr (s : String) : Bool :=
  match s.data with
  | [] => false
  | c :: rest => if c = '-' then plainDecCore rest else plainDecCore (c :: rest)

theorem buildBatch_all_ok {α : Type} :
    ∀ (xs : List (String × Except ExcVal α)) (i : Nat),
      (∀ p ∈ xs, p.2.isOk = true) →
      buildBatch i xs = ⟨xs.filterMap (fun p => p.2.toOption), [], true⟩ := by
  intro xs
  induction xs with
  | nil => intro i _; rfl
  | cons hd tl ih =>
    intro i h
    obtain ⟨cid, r⟩ := hd
    cases r with
    | ok v =>
      have htl := ih (i + 1) (fun p hp => h p (List.mem_cons_of_mem _ hp))
      simp [buildBatch, htl, Except.toOption]
    | error e =>
      have := h (cid, Except.error e) (List.mem_cons_self _ _)
      simp [Except.isOk, Except.toBool] at this

theorem buildBatch_length {α : Type} :
    ∀ (xs : List (String × Except ExcVal α)) (i : Nat),
      (buildBatch i xs).orders.length + (buildBatch i xs).errors.length = xs.length := by
  intro xs
  induction xs with
  | nil => intro i; rfl
  | cons hd tl ih =>
    intro i
    obtain ⟨cid, r⟩ := hd
    cases r with
    | ok v => simp [buildBatch]; have := ih (i + 1); omega
    | error e => simp [buildBatch]; have := ih (i + 1); omega

theorem buildBatch_all_success {α : Type} :
    ∀ (xs : List (String × Except ExcVal α)) (i : Nat),
      (buildBatch i xs).all_success = xs.all (fun p => p.2.isOk) := by
  intro xs
  induction xs with
  | nil => intro i; rfl
  | cons hd tl ih =>
    intro i
    obtain ⟨cid, r⟩ := hd
    cases r with
    | ok v => simp [buildBatch, ih (i + 1), Except.isOk, Except.toBool]
    | error e => simp [buildBatch, Except.isOk, Except.toBool]

theorem buildBatch_append {α : Type} :
    ∀ (xs ys : List (String × Except ExcVal α)) (i : Nat),
      buildBatch i (xs ++ ys) =
        ⟨(buildBatch i xs).orders ++ (buildBatch (i + xs.length) ys).orders,
         (buildBatch i xs).errors ++ (buildBatch (i + xs.length) ys).errors,
         ((buildBatch i xs).all_success && (buildBatch (i + xs.length) ys).all_success)⟩ := by
  intro xs
  induction xs with
  | nil => intro ys i; simp [buildBatch]
  | cons hd tl ih =>
    intro ys i
    obtain ⟨cid, r⟩ := hd
    have harith : i + (tl.length + 1) = (i + 1) + tl.length := by omega
    cases r with
    | ok v => simp [buildBatch, ih ys (i + 1), List.length_cons, harith]
    | error e => simp [buildBatch, ih ys (i + 1), List.length_cons, harith]

/-- Claim C1 (amended to the `python-connector` variant, whose response
carries the per-item error records): in the fallback path, a batch of size
K with exactly one failing item yields a response whose order slots and
error records together number exactly K, with `all_success = false`, the
single error record carrying the failing item's zero-based input index and
its request's `client_order_id`, and the other K−1 items present as
successes in input order; in general the slot count equals the input
length and `all_success` is true iff no item failed.  (The earlier
`python_connector` variant records no failure slots — see the
counterexample.) -/
theorem claim_C1 {α : Type} (pre post : List (String × Except ExcVal α))
    (cid : String) (e : ExcVal)
    (hpre : ∀ p ∈ pre, p.2.isOk = true) (hpost : ∀ p ∈ post, p.2.isOk = true) :
    ((batchFallback (pre ++ (cid, Except.error e) :: post)).orders.length +
        (batchFallback (pre ++ (cid, Except.error e) :: post)).errors.length =
      pre.length + 1 + post.length) ∧
    (batchFallback (pre ++ (cid, Except.error e) :: post)).errors =
      [⟨pre.length, cid, statusFor e⟩] ∧
    (batchFallback (pre ++ (cid, Except.error e) :: post)).all_success = false ∧
    (batchFallback (pre ++ (cid, Except.error e) :: post)).orders =
      pre.filterMap (fun p => p.2.toOption) ++ post.filterMap (fun p => p.2.toOption) ∧
    (∀ items : List (String × Except ExcVal α),
      (batchFallback items).orders.length + (batchFallback items).errors.length =
        items.length ∧
      ((batchFallback items).all_success = true ↔ ∀ p ∈ items, p.2.isOk = true)) := by
  have hmid :
      buildBatch pre.length ((cid, Except.error e) :: post) =
        ⟨post.filterMap (fun p => p.2.toOption),
         [⟨pre.length, cid, statusFor e⟩], false⟩ := by
    simp [buildBatch, buildBatch_all_ok post (pre.length + 1) hpost]
  have hsplit := buildBatch_append pre ((cid, Except.error e) :: post) 0
  have hpre' := buildBatch_all_ok pre 0 hpre
  refine ⟨?_, ?_, ?_, ?_, ?_⟩
  · unfold batchFallback
    have := buildBatch_length (pre ++ (cid, Except.error e) :: post) 0
    simp [List.length_append] at this ⊢
    omega
  · unfold batchFallback
    rw [hsplit, hpre']
    simp [Nat.zero_add, hmid]
  · unfold batchFallback
    rw [hsplit]
    simp [Nat.zero_add, hmid]
  · unfold batchFallback
    rw [hsplit, hpre']
    simp [Nat.zero_add, hmid]
  · intro items
    refine ⟨buildBatch_length items 0, ?_⟩
    unfold batchFallback
    rw [buildBatch_all_success items 0]
    simp [List.all_eq_true]

/-- Witness for C1 at the concrete batch
`[("a", ok 1), ("b", InsufficientFunds), ("c", ok 3)]`. -/
theorem claim_C1_witness :
    ((batchFallback ([("a", Except.ok 1)] ++ ("b",
          Except.error (ExcVal.ccxtExc .insufficientFunds)) ::
            [("c", (Except.ok 3 : Except ExcVal Nat))])).orders.length +
        (batchFallback ([("a", Except.ok 1)] ++ ("b",
          Except.error (ExcVal.ccxtExc .insufficientFunds)) ::
            [("c", Except.ok 3)])).errors.length =
      [("a", (Except.ok 1 : Except ExcVal Nat))].length + 1 +
        [("c", (Except.ok 3 : Except ExcVal Nat))].length) ∧
    (batchFallback ([("a", Except.ok 1)] ++ ("b",
        Except.error (ExcVal.ccxtExc .insufficientFunds)) ::
          [("c", Except.ok 3)])).errors =
      [⟨[("a", (Except.ok 1 : Except ExcVal Nat))].length, "b",
        statusFor (ExcVal.ccxtExc .insufficientFunds)⟩] ∧
    (batchFallback ([("a", Except.ok 1)] ++ ("b",
        Except.error (ExcVal.ccxtExc .insufficientFunds)) ::
          [("c", Except.ok 3)])).all_success = false ∧
    (batchFallback ([("a", Except.ok 1)] ++ ("b",
        Except.error (ExcVal.ccxtExc .insufficientFunds)) ::
          [("c", Except.ok 3)])).orders =
      [("a", (Except.ok 1 : Except ExcVal Nat))].filterMap (fun p => p.2.toOption) ++
        [("c", (Except.ok 3 : Except ExcVal Nat))].filterMap (fun p => p.2.toOption) ∧
    (∀ items : List (String × Except ExcVal Nat),
      (batchFallback items).orders.length + (batchFallback items).errors.length =
        items.length ∧
      ((batchFallback items).all_success = true ↔ ∀ p ∈ items, p.2.isOk = true)) :=
  claim_C1 [("a", Except.ok 1)] [("c", Except.ok 3)] "b"
    (ExcVal.ccxtExc .insufficientFunds)
    (by intro p hp; simp at hp; subst hp; rfl)
    (by intro p hp; simp at hp; subst hp; rfl)

/-- Counterexample for C1 as stated: the earlier `python_connector`
variant's fallback drops failed items — a batch of size 1 whose single
item fails yields zero result slots (no order and no error record is
kept, only `all_success = false`), so the result does not have K slots and
records no failing index. -/
theorem claim_C1_cex :
    batchFallbackOld [(Except.error (ExcVal.ccxtExc .exchangeError) : Except ExcVal Nat)] =
      ([], false) ∧
    ([] : List Nat).length ≠
      [(Except.error (ExcVal.ccxtExc .exchangeError) : Except ExcVal Nat)].length := by
  exact ⟨rfl, by decide⟩

/-- Claim C3 (the `python_connector` variant defeats it): in that
variant's fallback each item runs through the decorated
`self.PlaceOrder(req, context)` carrying the batch RPC's own context, so a
single item's venue failure triggers `context.abort` and aborts the whole
batch RPC; the reworked `python-connector` variant routes items through
`_place_order_impl`, and its batch body — whose per-item outcomes are all
captured by `gather(..., return_exceptions=True)` — never aborts the
shared context because of item failures, while a cancellation passes
through the handler untranslated. -/
theorem claim_C3 :
    (batchRpcOld true
        [Except.error (ExcVal.ccxtExc .exchangeError), (Except.ok 2 : Except ExcVal Nat)]).1 =
      true ∧
    (∀ items : List (String × Except ExcVal Nat),
      (handleCcxtException true (Except.ok (batchFallback items))).1 = false) ∧
    (∀ items : List (String × Except ExcVal Nat),
      handleCcxtException true (Except.ok (batchFallback items)) =
        (false, Except.ok (batchFallback items))) ∧
    handleCcxtException true (Except.error ExcVal.cancelledExc) =
      (false, (Except.error ExcVal.cancelledExc : Except ExcVal Nat)) :=
  ⟨rfl, fun _ => rfl, fun _ => rfl, rfl⟩

/-- Claim C6 (amended to the `python-connector` variant): its
`SubscribeKlines` teardown — run both on consumer cancellation and on
call completion — requests cancellation on every producer that has not
already finished and then awaits every producer, so the subscription never
completes with a live, unjoined producer task.  (The earlier
`python_connector` variant cancels without joining — see the
counterexample.) -/
theorem claim_C6 (ts : List ProducerTask) :
    ((klineTeardown ts).all fun t => t.joined && t.done) = true ∧
    (((ts.map cancelIfNotDone).all fun t => t.done || t.cancelRequested) = true) := by
  constructor
  · unfold klineTeardown
    rw [List.all_map]
    simp [joinTask]
  · rw [List.all_map]
    apply List.all_eq_true.mpr
    intro t _
    by_cases h : t.done <;> simp [cancelIfNotDone, Function.comp, h]

/-- Counterexample for C6 as stated: the `python_connector` variant's
teardown requests cancellation but returns without awaiting, leaving a
still-running producer task unjoined. -/
theorem claim_C6_cex :
    klineTeardownOld [⟨false, false, false⟩] = [⟨false, true, false⟩] ∧
    (ProducerTask.mk false true false).joined = false ∧
    (ProducerTask.mk false true false).done = false :=
  ⟨rfl, rfl, rfl⟩

/-- Claim C5: the failure-to-status classification is total and matches
the fixed ordered table exactly — every modelled venue failure is mapped,
by first match over `EXCEPTION_MAP`, to the single status the
specification's table demands, and any unrecognized failure maps to
`UNKNOWN`. -/
theorem claim_C5 : ∀ e : ExcVal, statusFor e = specStatus e := by
  intro e
  cases e with
  | ccxtExc cls => cases cls <;> rfl
  | cancelledExc => rfl
  | otherExc => rfl

/-- Claim C8: an attempt failing with a kind not caught by the transient
clause is never retried — the wrapper performs exactly one invocation, no
backoff sleep, and propagates that failure immediately. -/
theorem claim_C8 {α : Type} (max_retries : Nat) (b : ℚ)
    (op : Nat → Except ExcVal α) (e : ExcVal)
    (h1 : op 0 = Except.error e) (h2 : transientCaught e = false) :
    retry_transient max_retries b op = ⟨1, [], Except.error e⟩ := by
  cases max_retries <;> simp [retry_transient, retryGo, h1, h2]

/-- Witness for C8 at a concrete permanent failure
(`ccxt.InsufficientFunds`, max_retries = 3). -/
theorem claim_C8_witness :
    retry_transient 3 ((1 : ℚ) / 10)
        (fun _ => (Except.error (ExcVal.ccxtExc .insufficientFunds) : Except ExcVal Nat)) =
      ⟨1, [], Except.error (ExcVal.ccxtExc .insufficientFunds)⟩ :=
  claim_C8 3 ((1 : ℚ) / 10) _ _ rfl rfl

/-- Claim C9: `BatchPlaceOrders` follows the two-phase strategy — with the
`createOrders` capability flag absent the native primitive is never
invoked and execution goes directly to the per-item fallback; with the
flag present, a raising native invocation falls back to the per-item path,
while a successful native invocation maps its outputs 1:1 to the response
with `all_success = true` and no error records. -/
theorem claim_C9 {α : Type} (native : Except ExcVal (List α))
    (items : List (String × Except ExcVal α)) :
    BatchPlaceOrders false native items = (false, batchFallback items) ∧
    (∀ e : ExcVal,
      BatchPlaceOrders true (Except.error e) items = (true, batchFallback items)) ∧
    (∀ orders : List α,
      BatchPlaceOrders true (Except.ok orders) items = (true, ⟨orders, [], true⟩)) :=
  ⟨rfl, fun _ => rfl, fun _ => rfl⟩

/-- Claim C4: on a duplicate-id submission failure, a non-empty
`client_order_id` makes the connector return the result of looking the
existing order up by that key — the looked-up order as a success, or the
lookup's own failure in place of the original duplicate error — while an
empty key propagates the original duplicate failure unchanged. -/
theorem claim_C4 {α : Type} (d : ExcVal)
    (hdup : d.isInst .duplicateOrderId = true)
    (key : String) (fetchByKey : String → Except ExcVal α) :
    (key ≠ "" → ∀ o : α, fetchByKey key = Except.ok o →
      placeOrderImpl (Except.error d) key fetchByKey = Except.ok o) ∧
    (key ≠ "" → ∀ f : ExcVal, fetchByKey key = Except.error f →
      placeOrderImpl (Except.error d) key fetchByKey = Except.error f) ∧
    placeOrderImpl (Except.error d) "" fetchByKey = Except.error d := by
  refine ⟨?_, ?_, ?_⟩
  · intro hk o ho
    simp [placeOrderImpl, hdup, hk, ho]
  · intro hk f hf
    simp [placeOrderImpl, hdup, hk, hf]
  · simp [placeOrderImpl, hdup]

/-- Witness for C4 at a concrete `ccxt.DuplicateOrderId` failure with key
`"cid-1"`: successful lookup returns the existing order, a failing lookup
propagates the lookup failure, and an empty key propagates the duplicate
error. -/
theorem claim_C4_witness :
    placeOrderImpl (Except.error (ExcVal.ccxtExc .duplicateOrderId)) "cid-1"
        (fun _ => Except.ok (42 : Nat)) = Except.ok 42 ∧
    placeOrderImpl (Except.error (ExcVal.ccxtExc .duplicateOrderId)) "cid-1"
        (fun _ => (Except.error .otherExc : Except ExcVal Nat)) =
      Except.error .otherExc ∧
    placeOrderImpl (Except.error (ExcVal.ccxtExc .duplicateOrderId)) ""
        (fun _ => Except.ok (42 : Nat)) =
      Except.error (ExcVal.ccxtExc .duplicateOrderId) :=
  ⟨(claim_C4 (ExcVal.ccxtExc .duplicateOrderId) rfl "cid-1" _).1 (by decide) 42 rfl,
   (claim_C4 (ExcVal.ccxtExc .duplicateOrderId) rfl "cid-1" _).2.1 (by decide) _ rfl,
   (claim_C4 (ExcVal.ccxtExc .duplicateOrderId) rfl "" _).2.2⟩

theorem retryGo_all_transient {α : Type} :
    ∀ (N : Nat) (b : ℚ) (op : Nat → Except ExcVal α) (errs : Nat → ExcVal),
      (∀ i, i ≤ N → op i = Except.error (errs i) ∧ transientCaught (errs i) = true) →
      retryGo b N op =
        ⟨N + 1, (List.range N).map (fun i => b * 2 ^ i), Except.error (errs N)⟩ := by
  intro N
  induction N with
  | zero =>
    intro b op errs h
    obtain ⟨h0, ht⟩ := h 0 (Nat.le_refl 0)
    simp [retryGo, h0, ht]
  | succ n ih =>
    intro b op errs h
    obtain ⟨h0, ht⟩ := h 0 (Nat.zero_le _)
    have hrec := ih (b * 2) (fun i => op (i + 1)) (fun i => errs (i + 1))
      (fun i hi => h (i + 1) (Nat.succ_le_succ hi))
    have hpow : ∀ i : Nat, b * 2 * 2 ^ i = b * 2 ^ (i + 1) := by
      intro i; ring
    simp [retryGo, h0, ht, hrec, List.range_succ_eq_map, List.map_map]
    intro a _
    ring

/-- Claim C2: with `max_retries = N`, an operation failing with a
transient-caught kind on all of its `N+1` attempts is invoked exactly
`N+1` times, the sleep before the retry that follows attempt `i` is
`initial_backoff * 2^i` (the code doubles the backoff each retry), and the
failure finally propagated is the one raised by the last attempt. -/
theorem claim_C2 {α : Type} (N : Nat) (initial_backoff : ℚ)
    (op : Nat → Except ExcVal α) (errs : Nat → ExcVal)
    (h : ∀ i, i ≤ N → op i = Except.error (errs i) ∧ transientCaught (errs i) = true) :
    retry_transient N initial_backoff op =
      ⟨N + 1, (List.range N).map (fun i => initial_backoff * 2 ^ i),
        Except.error (errs N)⟩ :=
  retryGo_all_transient N initial_backoff op errs h

/-- Witness for C2: with `max_retries = 2` and every attempt failing with
`ccxt.NetworkError`, the wrapper makes 3 calls, sleeps `0.1` and then
`0.2`, and propagates the last failure. -/
theorem claim_C2_witness :
    retry_transient 2 ((1 : ℚ) / 10)
        (fun _ => (Except.error (ExcVal.ccxtExc .networkError) : Except ExcVal Nat)) =
      ⟨2 + 1, (List.range 2).map (fun i => ((1 : ℚ) / 10) * 2 ^ i),
        Except.error (ExcVal.ccxtExc .networkError)⟩ :=
  claim_C2 2 ((1 : ℚ) / 10) _ (fun _ => ExcVal.ccxtExc .networkError)
    (fun _ _ => ⟨rfl, rfl⟩)

/-- Claim C7 (amended to the `python-connector` variant, whose queue is
created with `maxsize=100`): every state of the kline subscription queue
reachable from the empty queue holds at most 100 items and loses nothing —
the accepted enqueues are exactly the dequeued items followed by the
buffered ones, in order — and a producer facing a buffer at capacity finds
the queue full, so its `put` step is disabled (it suspends) rather than
raising or dropping.  (The earlier `python_connector` variant's queue is
unbounded — see the counterexample.) -/
theorem claim_C7 (s : QueueSt Nat) (h : QueueReachable klineQueueMaxsize s) :
    s.buf.length ≤ klineQueueMaxsize ∧
    s.ins = s.outs ++ s.buf ∧
    (∀ buf : List Nat, klineQueueMaxsize ≤ buf.length →
      queueFull klineQueueMaxsize buf = true) := by
  refine ⟨?_, ?_, ?_⟩
  · induction h with
    | refl => simp
    | tail h1 h2 ih =>
      cases h2 with
      | put x hfull =>
        simp [queueFull, klineQueueMaxsize] at hfull ⊢
        omega
      | get x rest hbuf =>
        rw [hbuf] at ih
        simp [klineQueueMaxsize] at ih ⊢
        omega
  · induction h with
    | refl => rfl
    | tail h1 h2 ih =>
      cases h2 with
      | put x hfull => simp [ih]
      | get x rest hbuf =>
        show _ = (_ ++ [x]) ++ rest
        rw [ih, hbuf]
        simp
  · intro buf hlen
    simp [queueFull, klineQueueMaxsize] at hlen ⊢
    omega

/-- Witness for C7 at the state reached by a single `put` of item `5`. -/
theorem claim_C7_witness :
    (QueueSt.buf (⟨[5], [5], []⟩ : QueueSt Nat)).length ≤ klineQueueMaxsize ∧
    QueueSt.ins (⟨[5], [5], []⟩ : QueueSt Nat) =
      QueueSt.outs (⟨[5], [5], []⟩ : QueueSt Nat) ++
        QueueSt.buf (⟨[5], [5], []⟩ : QueueSt Nat) ∧
    (∀ buf : List Nat, klineQueueMaxsize ≤ buf.length →
      queueFull klineQueueMaxsize buf = true) :=
  claim_C7 ⟨[5], [5], []⟩
    (Relation.ReflTransGen.tail Relation.ReflTransGen.refl
      (QueueStep.put ⟨[], [], []⟩ 5 (by decide)))

/-- Counterexample for C7 as stated: the `python_connector` variant
creates `asyncio.Queue()` with `maxsize = 0`, which asyncio treats as
unbounded — with one item already buffered and a consumer that never
dequeues, the queue is still not full (a second `put` completes instead of
suspending), and a two-item buffer is reachable. -/
theorem claim_C7_cex :
    klineQueueMaxsizeOld = 0 ∧
    queueFull klineQueueMaxsizeOld [(0 : Nat)] = false ∧
    QueueReachable klineQueueMaxsizeOld (⟨[0, 1], [0, 1], []⟩ : QueueSt Nat) := by
  refine ⟨rfl, by decide, ?_⟩
  exact Relation.ReflTransGen.tail
    (Relation.ReflTransGen.tail Relation.ReflTransGen.refl
      (QueueStep.put ⟨[], [], []⟩ 0 (by decide)))
    (QueueStep.put ⟨[0], [0], []⟩ 1 (by decide))

theorem dropWhile_first_false {α : Type} (p : α → Bool) :
    ∀ (l : List α) (a : α) (rest : List α),
      l.dropWhile p = a :: rest → p a = false := by
  intro l
  induction l with
  | nil => intro a rest h; cases h
  | cons x xs ih =>
    intro a rest h
    rw [List.dropWhile_cons] at h
    by_cases hx : p x = true
    · rw [if_pos hx] at h
      exact ih a rest h
    · rw [if_neg hx] at h
      cases h
      cases hpx : p x
      · rfl
      · exact absurd hpx hx

theorem takeWhile_all_eq {α : Type} (p : α → Bool) :
    ∀ l : List α, (∀ c ∈ l, p c = true) → l.takeWhile p = l := by
  intro l
  induction l with
  | nil => intro _; rfl
  | cons x xs ih =>
    intro h
    rw [List.takeWhile_cons, if_pos (h x (List.mem_cons_self _ _)),
      ih (fun c hc => h c (List.mem_cons_of_mem _ hc))]

theorem dropWhile_all_eq {α : Type} (p : α → Bool) :
    ∀ l : List α, (∀ c ∈ l, p c = true) → l.dropWhile p = [] := by
  intro l
  induction l with
  | nil => intro _; rfl
  | cons x xs ih =>
    intro h
    rw [List.dropWhile_cons, if_pos (h x (List.mem_cons_self _ _))]
    exact ih (fun c hc => h c (List.mem_cons_of_mem _ hc))

theorem takeWhile_append_stop {α : Type} (p : α → Bool) :
    ∀ (xs : List α) (y : α) (ys : List α),
      (∀ c ∈ xs, p c = true) → p y = false →
      (xs ++ y :: ys).takeWhile p = xs := by
  intro xs
  induction xs with
  | nil =>
    intro y ys _ hy
    rw [List.nil_append, List.takeWhile_cons, if_neg (by simp [hy])]
  | cons x xs' ih =>
    intro y ys h hy
    rw [List.cons_append, List.takeWhile_cons,
      if_pos (h x (List.mem_cons_self _ _)),
      ih y ys (fun c hc => h c (List.mem_cons_of_mem _ hc)) hy]

theorem dropWhile_append_stop {α : Type} (p : α → Bool) :
    ∀ (xs : List α) (y : α) (ys : List α),
      (∀ c ∈ xs, p c = true) → p y = false →
      (xs ++ y :: ys).dropWhile p = y :: ys := by
  intro xs
  induction xs with
  | nil =>
    intro y ys _ hy
    rw [List.nil_append, List.dropWhile_cons, if_neg (by simp [hy])]
  | cons x xs' ih =>
    intro y ys h hy
    rw [List.cons_append, List.dropWhile_cons,
      if_pos (h x (List.mem_cons_self _ _))]
    exact ih y ys (fun c hc => h c (List.mem_cons_of_mem _ hc)) hy

theorem digitChar_digit : ∀ d : Fin 10, (Nat.digitChar d.val).isDigit = true := by
  decide

theorem digitChar_ne_zero : ∀ d : Fin 10, d ≠ 0 → Nat.digitChar d.val ≠ '0' := by
  decide

theorem digitsChars_isDigit (ds : List (Fin 10)) :
    ∀ c ∈ digitsChars ds, c.isDigit = true := by
  intro c hc
  obtain ⟨d, _, rfl⟩ := List.mem_map.mp hc
  exact digitChar_digit d

theorem digitsChars_ne_nil (ds : List (Fin 10)) (h : ds ≠ []) :
    digitsChars ds ≠ [] := by
  cases ds with
  | nil => exact absurd rfl h
  | cons d ds' => simp [digitsChars]

theorem plainDecCore_digits :
    ∀ cs : List Char, cs ≠ [] → (∀ c ∈ cs, c.isDigit = true) →
      plainDecCore cs = true := by
  intro cs hne h
  unfold plainDecCore
  rw [takeWhile_all_eq _ cs h, dropWhile_all_eq _ cs h]
  cases cs with
  | nil => exact absurd rfl hne
  | cons c cs' => rfl

theorem plainDecCore_point :
    ∀ xs ys : List Char, xs ≠ [] → (∀ c ∈ xs, c.isDigit = true) →
      ys ≠ [] → (∀ c ∈ ys, c.isDigit = true) → ys.getLast? ≠ some '0' →
      plainDecCore (xs ++ '.' :: ys) = true := by
  intro xs ys hxs hxd hys hyd hlast
  unfold plainDecCore
  rw [takeWhile_append_stop _ xs '.' ys hxd (by decide),
    dropWhile_append_stop _ xs '.' ys hxd (by decide)]
  have h1 : xs.isEmpty = false := by
    cases xs with
    | nil => exact absurd rfl hxs
    | cons a as => rfl
  have h2 : ys.isEmpty = false := by
    cases ys with
    | nil => exact absurd rfl hys
    | cons b bs => rfl
  have h3 : ys.all Char.isDigit = true := List.all_eq_true.mpr hyd
  have h4 : decide (ys.getLast? ≠ some '0') = true := decide_eq_true hlast
  simp [h1, h2, h3, h4]

theorem isPlain_signed (neg : Bool) (core : List Char)
    (hc : plainDecCore core = true)
    (hmem : ∀ c ∈ core, c.isDigit = true ∨ c = '.') :
    isPlainDecStr (String.mk ((if neg then ['-'] else []) ++ core)) = true := by
  cases neg with
  | false =>
    cases core with
    | nil => exact absurd hc (by decide)
    | cons c rest =>
      have hcd := hmem c (List.mem_cons_self _ _)
      have hcm : ¬ c = '-' := by
        rcases hcd with h | h
        · intro he; rw [he] at h; exact absurd h (by decide)
        · intro he; rw [he] at h; exact absurd h (by decide)
      show (if c = '-' then plainDecCore rest else plainDecCore (c :: rest)) = true
      rw [if_neg hcm]
      exact hc
  | true =>
    show (if ('-' : Char) = '-' then plainDecCore core else
      plainDecCore ('-' :: core)) = true
    rw [if_pos rfl]
    exact hc

theorem plainDecCore_zero_point (frac : List Char) (h1 : frac ≠ [])
    (h2 : ∀ c ∈ frac, c.isDigit = true) (h3 : frac.getLast? ≠ some '0') :
    plainDecCore ('0' :: '.' :: frac) = true :=
  plainDecCore_point ['0'] frac (by decide)
    (by intro c hc; simp at hc; rw [hc]; decide) h1 h2 h3

theorem getLast?_append_right {α : Type} (xs ys : List α) (h : ys ≠ []) :
    (xs ++ ys).getLast? = ys.getLast? := by
  obtain ⟨y, hy⟩ := Option.isSome_iff_exists.mp (List.getLast?_isSome.mpr h)
  rw [List.getLast?_append, hy]
  rfl

theorem formatFin_plain (neg : Bool) (ds : List (Fin 10)) (exp : Int)
    (hne : ds ≠ [])
    (hshape : ds.getLast? ≠ some 0 ∨ (ds = [(0 : Fin 10)] ∧ exp = 0)) :
    isPlainDecStr (String.mk (formatFin neg ds exp)) = true := by
  by_cases hexp : 0 ≤ exp
  · have hform : formatFin neg ds exp =
        (if neg then ['-'] else []) ++
          (digitsChars ds ++ List.replicate exp.toNat '0') := by
      unfold formatFin
      rw [if_pos hexp, List.append_assoc]
    rw [hform]
    apply isPlain_signed
    · apply plainDecCore_digits
      · cases hds : digitsChars ds with
        | nil => exact absurd hds (digitsChars_ne_nil ds hne)
        | cons c cs' => simp
      · intro c hc
        rcases List.mem_append.mp hc with h | h
        · exact digitsChars_isDigit ds c h
        · rw [(List.mem_replicate.mp h).2]; decide
    · intro c hc
      rcases List.mem_append.mp hc with h | h
      · exact Or.inl (digitsChars_isDigit ds c h)
      · exact Or.inl (by rw [(List.mem_replicate.mp h).2]; decide)
  · have hlt : exp < 0 := by omega
    have hlast : ds.getLast? ≠ some 0 := by
      rcases hshape with h | ⟨h1, h2⟩
      · exact h
      · exact absurd h2 (by omega)
    by_cases hkl : (-exp).toNat < ds.length
    · have hform : formatFin neg ds exp =
          (if neg then ['-'] else []) ++
            (digitsChars (ds.take (ds.length - (-exp).toNat)) ++
              '.' :: digitsChars (ds.drop (ds.length - (-exp).toNat))) := by
        unfold formatFin
        rw [if_neg hexp, if_pos hkl, List.append_assoc]
      rw [hform]
      have htake_len : (ds.take (ds.length - (-exp).toNat)).length =
          ds.length - (-exp).toNat := by
        rw [List.length_take]
        exact Nat.min_eq_left (by omega)
      have htake_ne : ds.take (ds.length - (-exp).toNat) ≠ [] := by
        apply List.length_pos.mp
        rw [htake_len]
        omega
      have hdrop_len : (ds.drop (ds.length - (-exp).toNat)).length = (-exp).toNat := by
        rw [List.length_drop]
        omega
      have hdrop_ne : ds.drop (ds.length - (-exp).toNat) ≠ [] := by
        apply List.length_pos.mp
        rw [hdrop_len]
        omega
      have hdlast : (ds.drop (ds.length - (-exp).toNat)).getLast? = ds.getLast? := by
        conv_rhs => rw [← List.take_append_drop (ds.length - (-exp).toNat) ds]
        rw [getLast?_append_right _ _ hdrop_ne]
      obtain ⟨y, hy⟩ :=
        Option.isSome_iff_exists.mp (List.getLast?_isSome.mpr hdrop_ne)
      have hy0 : y ≠ 0 := by
        intro h0
        apply hlast
        rw [← hdlast, hy, h0]
      apply isPlain_signed
      · apply plainDecCore_point
        · exact digitsChars_ne_nil _ htake_ne
        · exact digitsChars_isDigit _
        · exact digitsChars_ne_nil _ hdrop_ne
        · exact digitsChars_isDigit _
        · rw [digitsChars, List.getLast?_map, hy]
          intro hcontr
          injection hcontr with hch
          exact digitChar_ne_zero y hy0 hch
      · intro c hc
        rcases List.mem_append.mp hc with h | h
        · exact Or.inl (digitsChars_isDigit _ c h)
        · rcases List.mem_cons.mp h with h | h
          · exact Or.inr h
          · exact Or.inl (digitsChars_isDigit _ c h)
    · have hform : formatFin neg ds exp =
          (if neg then ['-'] else []) ++
            ('0' :: '.' ::
              (List.replicate ((-exp).toNat - ds.length) '0' ++ digitsChars ds)) := by
        unfold formatFin
        rw [if_neg hexp, if_neg hkl]
      rw [hform]
      apply isPlain_signed
      · apply plainDecCore_zero_point
        · intro habs
          rcases List.append_eq_nil.mp habs with ⟨_, h2⟩
          exact digitsChars_ne_nil ds hne h2
        · intro c hc
          rcases List.mem_append.mp hc with h | h
          · rw [(List.mem_replicate.mp h).2]; decide
          · exact digitsChars_isDigit ds c h
        · rw [getLast?_append_right _ _ (digitsChars_ne_nil ds hne), digitsChars,
            List.getLast?_map]
          obtain ⟨y, hy⟩ :=
            Option.isSome_iff_exists.mp (List.getLast?_isSome.mpr hne)
          rw [hy]
          intro hcontr
          injection hcontr with hch
          exact digitChar_ne_zero y (fun h0 => hlast (h0 ▸ hy)) hch
      · intro c hc
        rcases List.mem_cons.mp hc with h | h
        · exact Or.inl (by rw [h]; decide)
        · rcases List.mem_cons.mp h with h | h
          · exact Or.inr h
          · rcases List.mem_append.mp h with h | h
            · exact Or.inl (by rw [(List.mem_replicate.mp h).2]; decide)
            · exact Or.inl (digitsChars_isDigit ds c h)

theorem stripTrail_shape (ds : List (Fin 10)) (exp : Int) :
    (stripTrail ds exp).1 ≠ [] ∧
      ((stripTrail ds exp).1.getLast? ≠ some 0 ∨
        ((stripTrail ds exp).1 = [(0 : Fin 10)] ∧ (stripTrail ds exp).2 = 0)) := by
  cases hr : ds.reverse.dropWhile (fun d => d = (0 : Fin 10)) with
  | nil =>
    simp [stripTrail, hr]
  | cons a rest =>
    have ha : a ≠ 0 := by
      have := dropWhile_first_false _ _ a rest hr
      simpa using this
    constructor
    · simp [stripTrail, hr]
    · left
      simp [stripTrail, hr, List.getLast?_reverse, ha]

theorem normDec_fin_shape (neg : Bool) (ds : List (Fin 10)) (exp : Int) :
    ∃ ds2 exp2, normDec (.fin neg ds exp) = some (.fin neg ds2 exp2) ∧
      ds2 ≠ [] ∧
      (ds2.getLast? ≠ some 0 ∨ (ds2 = [(0 : Fin 10)] ∧ exp2 = 0)) := by
  by_cases hz : canonDigits ds = [(0 : Fin 10)]
  · refine ⟨[(0 : Fin 10)], 0, ?_, by simp, Or.inr ⟨rfl, rfl⟩⟩
    simp [normDec, hz]
  · obtain ⟨h1, h2⟩ :=
      stripTrail_shape (round28 (canonDigits ds) exp).1 (round28 (canonDigits ds) exp).2
    refine ⟨_, _, ?_, h1, h2⟩
    simp [normDec, hz]

/-- Claim C10 (amended): `_to_decimal` is total — it is a function that
always yields a `Decimal` message value — with `None`, unparseable
strings, and signaling-NaN strings (whose `normalize()` raises) all
producing `"0"`, and every finite convertible input producing a plain
positional decimal string: no exponent marker and no trailing fractional
zeros.  (`NaN`/`Infinity` inputs are convertible but produce the special
strings `"NaN"`/`"Infinity"` — see the counterexample.) -/
theorem claim_C10 :
    to_decimal .pynone = "0" ∧
    (∀ s : String, parseDecStr s = none → to_decimal (.pystr s) = "0") ∧
    (∀ (s : String) (neg : Bool) (p : List (Fin 10)),
      parseDecStr s = some (.snanD neg p) → to_decimal (.pystr s) = "0") ∧
    (∀ (s : String) (neg : Bool) (ds : List (Fin 10)) (exp : Int),
      parseDecStr s = some (.fin neg ds exp) →
      isPlainDecStr (to_decimal (.pystr s)) = true) ∧
    to_decimal (.pystr "1e3") = "1000" ∧
    to_decimal (.pystr "1000.0") = "1000" ∧
    to_decimal (.pystr "0.1000") = "0.1" ∧
    to_decimal (.pystr "abc") = "0" ∧
    to_decimal (.pyint (-5)) = "-5" := by
  refine ⟨rfl, ?_, ?_, ?_, by decide, by decide, by decide, by decide, by decide⟩
  · intro s h
    show decPipe s = "0"
    unfold decPipe
    rw [h]
  · intro s neg p h
    show decPipe s = "0"
    unfold decPipe
    rw [h]
    rfl
  · intro s neg ds exp h
    show isPlainDecStr (decPipe s) = true
    unfold decPipe
    rw [h]
    show isPlainDecStr (decNorm (PyDec.fin neg ds exp)) = true
    obtain ⟨ds2, exp2, hn, hne2, hshape2⟩ := normDec_fin_shape neg ds exp
    unfold decNorm
    rw [hn]
    exact formatFin_plain neg ds2 exp2 hne2 hshape2

/-- Witness for C10 at concrete inputs: the scientific-notation string
`"1e-07"` converts to a plain decimal string, the unparseable string
`"x9"` and the signaling-NaN string `"snan"` convert to `"0"`. -/
theorem claim_C10_witness :
    isPlainDecStr (to_decimal (.pystr "1e-07")) = true ∧
    to_decimal (.pystr "x9") = "0" ∧
    to_decimal (.pystr "snan") = "0" :=
  ⟨claim_C10.2.2.2.1 "1e-07" false [(1 : Fin 10)] (-7) (by decide),
   claim_C10.2.1 "x9" (by decide),
   claim_C10.2.2.1 "snan" false [] (by decide)⟩

/-- Counterexample for C10 as stated: `float('inf')` (whose `str()` is
`"inf"`) is convertible — no exception is raised — yet `_to_decimal`
returns the value `"Infinity"`, which is neither `"0"` nor a plain
decimal string; likewise the string `"nan"` yields `"NaN"`. -/
theorem claim_C10_cex :
    to_decimal (.pyfloat "inf") = "Infinity" ∧
    isPlainDecStr "Infinity" = false ∧
    ("Infinity" : String) ≠ "0" ∧
    to_decimal (.pystr "nan") = "NaN" ∧
    isPlainDecStr "NaN" = false := by
  refine ⟨by decide, by decide, by decide, by decide, by decide⟩

end Spec2Proof
